import Mathlib

/-!
# rwe: the command dispatch, the deferred-action queue and the cursor modes of `GameScene.h`

A shallow embedding of the parts of `src/rwe/GameScene.h` that carry behaviour:

* the four cursor-mode structs with their `operator==` / `operator!=`;
* `GameSceneTimeAction`, the `actions` deque and `GameScene::delay`;
* the visitors `GameScene::UnitCommandDispacher` and `GameScene::PlayerCommandDispatcher`.

The scene methods the visitors call (`issueUnitOrder`, `enqueueUnitOrder`, `stopUnit`,
`setFireOrders`, `activateUnit`, `deactivateUnit`) are only declared in the header.  The visitors
are therefore embedded over an arbitrary implementation of those methods (`SceneOps`), and a
second, clearly marked implementation follows the wording of the specification.
-/

namespace rwe

/-! ## Cursor modes (GameScene.h, lines 59-106) -/

/-- The struct `AttackCursorMode`: it has no members. -/
structure AttackCursorMode where
  deriving DecidableEq, Repr

/-- The member `AttackCursorMode::operator==`: `return true;`. -/
def AttackCursorMode.eq (_lhs _rhs : AttackCursorMode) : Bool := true

/-- The member `AttackCursorMode::operator!=`: `return false;`. -/
def AttackCursorMode.ne (_lhs _rhs : AttackCursorMode) : Bool := false

/-- The struct `MoveCursorMode`: it has no members. -/
structure MoveCursorMode where
  deriving DecidableEq, Repr

/-- The member `MoveCursorMode::operator==`: `return true;`. -/
def MoveCursorMode.eq (_lhs _rhs : MoveCursorMode) : Bool := true

/-- The member `MoveCursorMode::operator!=`: `return false;`. -/
def MoveCursorMode.ne (_lhs _rhs : MoveCursorMode) : Bool := false

/-- The enumeration `NormalCursorMode::State`. -/
inductive NormalCursorMode.State where
  | Selecting
  | DraggingMinimap
  | Up
  deriving DecidableEq, Repr

/-- The struct `NormalCursorMode`; the member initialiser is `State state{State::Up}`. -/
structure NormalCursorMode where
  state : NormalCursorMode.State := NormalCursorMode.State.Up
  deriving DecidableEq, Repr

/-- The member `NormalCursorMode::operator==`: `return state == rhs.state;`. -/
def NormalCursorMode.eq (lhs rhs : NormalCursorMode) : Bool := decide (lhs.state = rhs.state)

/-- The member `NormalCursorMode::operator!=`: `return !(rhs == *this);`
(the operands are swapped, as in the source). -/
def NormalCursorMode.ne (lhs rhs : NormalCursorMode) : Bool := !(NormalCursorMode.eq rhs lhs)

/-- The struct `BuildCursorMode`, with its `std::string unitType`. -/
structure BuildCursorMode where
  unitType : String
  deriving DecidableEq, Repr

/-- The member `BuildCursorMode::operator==`: `return unitType == rhs.unitType;`. -/
def BuildCursorMode.eq (lhs rhs : BuildCursorMode) : Bool := decide (lhs.unitType = rhs.unitType)

/-- The member `BuildCursorMode::operator!=`: `return !(rhs == *this);`
(the operands are swapped, as in the source). -/
def BuildCursorMode.ne (lhs rhs : BuildCursorMode) : Bool := !(BuildCursorMode.eq rhs lhs)

/-! ## Identifiers and commands

`PlayerId.h`, `UnitId.h`, `UnitOrder.h` and `PlayerCommand.h` are not part of the sources at hand.
The visitors fix the shape of the command types by the way they read them (`c.unit`, `c.command`,
`c.issueKind`, `c.order`, `c.orders`, `c.on`); the rest follows the data model of the
specification.  The payload of an order is left as a type parameter `Order`. -/

/-- Modelled from the spec: `UnitId.h` is missing; a unit is "identified by an opaque id". -/
structure UnitId where
  value : Nat
  deriving DecidableEq, Repr

/-- Modelled from the spec: `PlayerId.h` is missing; a player is "identified by an opaque id". -/
structure PlayerId where
  value : Nat
  deriving DecidableEq, Repr

/-- Modelled from the spec: `UnitFireOrders` is declared in a missing header; the specification
lists "hold-fire / return-fire / fire-at-will" and the source names `UnitFireOrders::HoldFire`. -/
inductive UnitFireOrders where
  | HoldFire
  | ReturnFire
  | FireAtWill
  deriving DecidableEq, Repr

/-- Modelled from the spec: `PlayerUnitCommand::IssueOrder::IssueKind` is declared in the missing
`PlayerCommand.h`; the switch of `UnitCommandDispacher` names exactly the enumerators `Immediate`
and `Queued`, as does the specification ("issue-order (immediate or queued)"). -/
inductive IssueKind where
  | Immediate
  | Queued
  deriving DecidableEq, Repr

/-- Modelled from the spec: the nested variant `PlayerUnitCommand::Command` of the missing
`PlayerCommand.h`, "one of {issue-order (immediate or queued), stop, set-fire-orders,
set-power-state}"; one constructor per `operator()` overload of `UnitCommandDispacher`, with the
members each overload reads (`on_` stands for the member `on`, a reserved word here). -/
inductive UnitCommand (Order : Type) where
  | IssueOrder (order : Order) (issueKind : IssueKind)
  | Stop
  | SetFireOrders (orders : UnitFireOrders)
  | SetOnOff (on_ : Bool)
  deriving DecidableEq, Repr

/-- Modelled from the spec: the struct `PlayerUnitCommand` of the missing `PlayerCommand.h`: "carries
a unit id and one of" the unit commands; `PlayerCommandDispatcher` reads `c.unit` and `c.command`. -/
structure PlayerUnitCommand (Order : Type) where
  unit : UnitId
  command : UnitCommand Order
  deriving DecidableEq, Repr

/-- Modelled from the spec: the variant `PlayerCommand` of the missing `PlayerCommand.h`, "unit
command, pause-game, unpause-game"; one constructor per `operator()` overload of
`PlayerCommandDispatcher`. -/
inductive PlayerCommand (Order : Type) where
  | PlayerUnitCommand (c : PlayerUnitCommand Order)
  | PlayerPauseGameCommand
  | PlayerUnpauseGameCommand
  deriving DecidableEq, Repr

/-! ## The visitors (GameScene.h, lines 152-225) -/

/-- The six private methods of `GameScene` that the visitors call, as state transformers on a
scene state `σ`.  Their bodies are not in the header, so the visitors are embedded over any
implementation of them.  The signatures are the declared ones (lines 396-397 and 430-436): none
takes a `PlayerId`. -/
structure SceneOps (Order σ : Type) where
  issueUnitOrder : UnitId → Order → σ → σ
  enqueueUnitOrder : UnitId → Order → σ → σ
  stopUnit : UnitId → σ → σ
  setFireOrders : UnitId → UnitFireOrders → σ → σ
  activateUnit : UnitId → σ → σ
  deactivateUnit : UnitId → σ → σ

/-- The visitor `GameScene::UnitCommandDispacher` (the spelling is the one of the source): it is
constructed from the scene, a player and a unit, and `boost::apply_visitor` selects the
`operator()` overload by the alternative held in the variant. -/
def UnitCommandDispacher {Order σ : Type} (scene : SceneOps Order σ) (_player : PlayerId)
    (unit : UnitId) : UnitCommand Order → σ → σ
  | .IssueOrder order .Immediate => scene.issueUnitOrder unit order
  | .IssueOrder order .Queued => scene.enqueueUnitOrder unit order
  | .Stop => scene.stopUnit unit
  | .SetFireOrders orders => scene.setFireOrders unit orders
  | .SetOnOff on_ => if on_ then scene.activateUnit unit else scene.deactivateUnit unit

/-- The visitor `GameScene::PlayerCommandDispatcher`: a unit command goes to a
`UnitCommandDispacher` built from `c.unit`; the two overloads for pausing and unpausing have the
body `// TODO` and nothing else. -/
def PlayerCommandDispatcher {Order σ : Type} (scene : SceneOps Order σ) (playerId : PlayerId) :
    PlayerCommand Order → σ → σ
  | .PlayerUnitCommand c => UnitCommandDispacher scene playerId c.unit c.command
  | .PlayerPauseGameCommand => fun s => s
  | .PlayerUnpauseGameCommand => fun s => s

/-- The name of one call of a scene method together with its arguments; used to observe which
methods a visitor invokes. -/
inductive SceneCall (Order : Type) where
  | issueUnitOrder (unitId : UnitId) (order : Order)
  | enqueueUnitOrder (unitId : UnitId) (order : Order)
  | stopUnit (unitId : UnitId)
  | setFireOrders (unitId : UnitId) (orders : UnitFireOrders)
  | activateUnit (unitId : UnitId)
  | deactivateUnit (unitId : UnitId)
  deriving DecidableEq, Repr

/-- The unit a scene call is made on (the `unitId` argument every one of the six methods has). -/
def SceneCall.unitId {Order : Type} : SceneCall Order → UnitId
  | .issueUnitOrder u _ => u
  | .enqueueUnitOrder u _ => u
  | .stopUnit u => u
  | .setFireOrders u _ => u
  | .activateUnit u => u
  | .deactivateUnit u => u

/-- Running one recorded call on an implementation of the scene methods. -/
def SceneCall.run {Order σ : Type} (scene : SceneOps Order σ) : SceneCall Order → σ → σ
  | .issueUnitOrder u o => scene.issueUnitOrder u o
  | .enqueueUnitOrder u o => scene.enqueueUnitOrder u o
  | .stopUnit u => scene.stopUnit u
  | .setFireOrders u m => scene.setFireOrders u m
  | .activateUnit u => scene.activateUnit u
  | .deactivateUnit u => scene.deactivateUnit u

/-- The implementation of the scene methods that does nothing but log each call, in call order.
The state is the log. -/
def recordingScene (Order : Type) : SceneOps Order (List (SceneCall Order)) where
  issueUnitOrder u o log := log ++ [SceneCall.issueUnitOrder u o]
  enqueueUnitOrder u o log := log ++ [SceneCall.enqueueUnitOrder u o]
  stopUnit u log := log ++ [SceneCall.stopUnit u]
  setFireOrders u m log := log ++ [SceneCall.setFireOrders u m]
  activateUnit u log := log ++ [SceneCall.activateUnit u]
  deactivateUnit u log := log ++ [SceneCall.deactivateUnit u]

/-- The dispatch table as the specification words it (section 4.3 and the statement of the rule
per variant): which single scene operation each nested unit command stands for.  This definition
follows the specification, not the source; it is what `UnitCommandDispacher` is compared with. -/
def specifiedCall {Order : Type} (u : UnitId) : UnitCommand Order → SceneCall Order
  | .IssueOrder order .Immediate => SceneCall.issueUnitOrder u order
  | .IssueOrder order .Queued => SceneCall.enqueueUnitOrder u order
  | .Stop => SceneCall.stopUnit u
  | .SetFireOrders orders => SceneCall.setFireOrders u orders
  | .SetOnOff true => SceneCall.activateUnit u
  | .SetOnOff false => SceneCall.deactivateUnit u

/-! ## The deferred actions (GameScene.h, lines 42-57, 276, 300, 470-474) -/

/-- Modelled from the spec: `SceneTime.h` is missing.  The tick counter is a "monotonically
increasing integer"; no width is given, so scene time is an unbounded integer. -/
abbrev SceneTime := Int

/-- Modelled from the spec: `SceneTime.h` is missing.  A delay is a number of ticks; the
specification asks callers for "delays ≥ 0", so the type itself admits negative values. -/
abbrev SceneTimeDelta := Int

/-- The struct `GameSceneTimeAction`: a trigger time and a callback.  The callback is a
`std::function<void()>`; it is never run by the code embedded here, so it is a value of an
arbitrary type `κ`. -/
structure GameSceneTimeAction (κ : Type) where
  triggerTime : SceneTime
  callback : κ
  deriving DecidableEq, Repr

/-- The members of `GameScene` that the embedded methods read or write: `sceneTime` (initialised
`{0}`), the deque `actions` of optional time actions, and, as one field `simulation`, the
simulation state that the scene methods act on. -/
structure GameScene (ω κ : Type) where
  simulation : ω
  sceneTime : SceneTime
  actions : List (Option (GameSceneTimeAction κ))
  deriving DecidableEq, Repr

/-- A scene as the member initialisers leave it: `sceneTime{0}` and an empty `actions` deque. -/
def GameScene.initial {ω κ : Type} (simulation : ω) : GameScene ω κ :=
  { simulation := simulation, sceneTime := 0, actions := [] }

/-- The member template `GameScene::delay`:
`actions.push_back(GameSceneTimeAction(sceneTime + interval, std::forward<T>(f)));`. -/
def GameScene.delay {ω κ : Type} (interval : SceneTimeDelta) (f : κ) (s : GameScene ω κ) :
    GameScene ω κ :=
  { s with actions := s.actions ++ [some { triggerTime := s.sceneTime + interval, callback := f }] }

/-- The trigger times of the entries stored in `actions`, front to back (an emptied slot stores
no entry). -/
def GameScene.triggerTimes {ω κ : Type} (s : GameScene ω κ) : List SceneTime :=
  s.actions.filterMap (fun a => a.map GameSceneTimeAction.triggerTime)

/-- One call of `delay` as seen from outside: the scene time at which it is made (the tick loop
owns `sceneTime`), the interval and the callback. -/
structure DelayCall (κ : Type) where
  time : SceneTime
  interval : SceneTimeDelta
  callback : κ
  deriving DecidableEq, Repr

/-- A sequence of `delay` calls: before each call the clock stands at the time of the call. -/
def GameScene.runDelays {ω κ : Type} (calls : List (DelayCall κ)) (s : GameScene ω κ) :
    GameScene ω κ :=
  calls.foldl (fun acc c => GameScene.delay c.interval c.callback { acc with sceneTime := c.time }) s

/-! ## The scene methods, after the specification

`Unit.h`, `GameSimulation.h` and `GameScene.cpp` are missing: the header declares the six scene
methods and `getUnit`, and nothing more.  The definitions of this section follow the data model
(section 3) and the effect table (section 4.3) of the specification, for a unit that is stored
under the id of the command. -/

/-- Modelled from the spec: `Unit.h` is missing.  Section 3 lists, for a unit, its "owning player
id", "an ordered queue of pending orders", "a current fire-orders mode", "a power state (on/off)"
and "health"; `moving` stands for the "in-progress movement" that a stop halts. -/
structure Unit (Order : Type) where
  owner : PlayerId
  orders : List Order
  fireOrders : UnitFireOrders
  powered : Bool
  moving : Bool
  health : Int
  deriving DecidableEq, Repr

/-- Modelled from the spec: `GameSimulation.h` is missing.  The live units, each under its id; a
reaped unit has no entry. -/
structure GameSimulation (Order : Type) where
  units : List (UnitId × Unit Order)
  deriving DecidableEq, Repr

/-- The scene state the specified scene methods act on. -/
abbrev Scene (Order κ : Type) := GameScene (GameSimulation Order) κ

/-- Modelled from the spec: the body of `GameScene::getUnit` (declared on lines 440-442) is
missing.  The declaration is `Unit& getUnit(UnitId id)`: the result is the unit stored under the
id, and the declaration has no result for an id under which nothing is stored.  `some unit` is
that result; `none` marks a call that has no result, it is not a value the method hands back.
Only the `some` case is used below. -/
def getUnit {Order κ : Type} (id : UnitId) (s : Scene Order κ) : Option (Unit Order) :=
  (s.simulation.units.find? (fun e => decide (e.1 = id))).map Prod.snd

/-- Modelled from the spec: no part of the header corresponds to this helper.  It applies a
change to the unit stored under an id and is the common core of the six effects of section 4.3,
each of which the specification words as a change to "the unit".  It is used below for ids of
stored units only; what the scene methods do with any other id is not modelled. -/
def modifyUnit {Order κ : Type} (id : UnitId) (f : Unit Order → Unit Order) (s : Scene Order κ) :
    Scene Order κ :=
  { s with simulation :=
      { units := s.simulation.units.map (fun e => if e.1 = id then (e.1, f e.2) else e) } }

/-- Modelled from the spec: the body of `GameScene::issueUnitOrder` is missing.  "Replace the
unit's order queue with a single-element queue containing the order." -/
def issueUnitOrder {Order κ : Type} (unitId : UnitId) (order : Order) : Scene Order κ → Scene Order κ :=
  modifyUnit unitId (fun u => { u with orders := [order] })

/-- Modelled from the spec: the body of `GameScene::enqueueUnitOrder` is missing.  "Append the
order to the back of the unit's order queue." -/
def enqueueUnitOrder {Order κ : Type} (unitId : UnitId) (order : Order) :
    Scene Order κ → Scene Order κ :=
  modifyUnit unitId (fun u => { u with orders := u.orders ++ [order] })

/-- Modelled from the spec: the body of `GameScene::stopUnit` is missing.  "Clear the unit's
order queue and halt any in-progress movement." -/
def stopUnit {Order κ : Type} (unitId : UnitId) : Scene Order κ → Scene Order κ :=
  modifyUnit unitId (fun u => { u with orders := [], moving := false })

/-- Modelled from the spec: the body of `GameScene::setFireOrders` is missing.  "Replace the
unit's fire-orders mode." -/
def setFireOrders {Order κ : Type} (unitId : UnitId) (orders : UnitFireOrders) :
    Scene Order κ → Scene Order κ :=
  modifyUnit unitId (fun u => { u with fireOrders := orders })

/-- Modelled from the spec: the body of `GameScene::activateUnit` is missing.  "Mark unit
powered". -/
def activateUnit {Order κ : Type} (unitId : UnitId) : Scene Order κ → Scene Order κ :=
  modifyUnit unitId (fun u => { u with powered := true })

/-- Modelled from the spec: the body of `GameScene::deactivateUnit` is missing.  "Mark unit
unpowered; ... does not remove the unit." -/
def deactivateUnit {Order κ : Type} (unitId : UnitId) : Scene Order κ → Scene Order κ :=
  modifyUnit unitId (fun u => { u with powered := false })

/-- The specified scene methods, gathered for the visitors. -/
def specScene (Order κ : Type) : SceneOps Order (Scene Order κ) where
  issueUnitOrder := issueUnitOrder
  enqueueUnitOrder := enqueueUnitOrder
  stopUnit := stopUnit
  setFireOrders := setFireOrders
  activateUnit := activateUnit
  deactivateUnit := deactivateUnit

/-- A Boolean equality with its inequality, as a C++ type offers them, is coherent when `!=` is
the negation of `==` and `==` is reflexive, symmetric and transitive. -/
def CoherentEq {α : Type} (eq ne : α → α → Bool) : Prop :=
  (∀ a b, ne a b = !(eq a b)) ∧ (∀ a, eq a a = true) ∧ (∀ a b, eq a b = true → eq b a = true) ∧
    (∀ a b c, eq a b = true → eq b c = true → eq a c = true)

/-! ## Lemmas -/

/-- Every unit command makes the visitor perform the one call the specification names. -/
theorem UnitCommandDispacher_eq_run {Order σ : Type} (scene : SceneOps Order σ) (p : PlayerId)
    (u : UnitId) (c : UnitCommand Order) :
    UnitCommandDispacher scene p u c = SceneCall.run scene (specifiedCall u c) := by
  cases c with
  | IssueOrder order kind => cases kind <;> rfl
  | Stop => rfl
  | SetFireOrders orders => rfl
  | SetOnOff b => cases b <;> rfl

/-- The specified call is a call on the unit of the command. -/
theorem specifiedCall_unitId {Order : Type} (u : UnitId) (c : UnitCommand Order) :
    (specifiedCall u c).unitId = u := by
  cases c with
  | IssueOrder order kind => cases kind <;> rfl
  | Stop => rfl
  | SetFireOrders orders => rfl
  | SetOnOff b => cases b <;> rfl

/-- On the recording scene a call appends itself to the log. -/
theorem run_recordingScene {Order : Type} (call : SceneCall Order) (log : List (SceneCall Order)) :
    SceneCall.run (recordingScene Order) call log = log ++ [call] := by
  cases call <;> rfl

/-- The player-level visitor never reads the player id. -/
theorem PlayerCommandDispatcher_player_irrelevant {Order σ : Type} (scene : SceneOps Order σ)
    (p₁ p₂ : PlayerId) (c : PlayerCommand Order) :
    PlayerCommandDispatcher scene p₁ c = PlayerCommandDispatcher scene p₂ c := by
  cases c with
  | PlayerUnitCommand c =>
    show UnitCommandDispacher scene p₁ c.unit c.command = UnitCommandDispacher scene p₂ c.unit c.command
    rw [UnitCommandDispacher_eq_run, UnitCommandDispacher_eq_run]
  | PlayerPauseGameCommand => rfl
  | PlayerUnpauseGameCommand => rfl

/-- After a change to the unit under an id, the unit found under that id is the changed one. -/
theorem getUnit_modifyUnit {Order κ : Type} (id : UnitId) (f : Unit Order → Unit Order)
    (s : Scene Order κ) : getUnit id (modifyUnit id f s) = (getUnit id s).map f := by
  obtain ⟨sim, time, acts⟩ := s
  obtain ⟨units⟩ := sim
  simp only [getUnit, modifyUnit]
  induction units with
  | nil => rfl
  | cons e rest ih =>
    by_cases he : e.1 = id
    · simp [List.find?_cons, he]
    · simp only [List.map_cons, if_neg he, List.find?_cons, decide_eq_false he]
      exact ih

/-- A call of `delay` changes only `actions`, by one entry at the back. -/
theorem delay_actions {ω κ : Type} (interval : SceneTimeDelta) (f : κ) (s : GameScene ω κ) :
    (GameScene.delay interval f s).actions =
      s.actions ++ [some { triggerTime := s.sceneTime + interval, callback := f }] := rfl

/-- The trigger times after a call of `delay`. -/
theorem triggerTimes_delay {ω κ : Type} (interval : SceneTimeDelta) (f : κ) (s : GameScene ω κ) :
    (GameScene.delay interval f s).triggerTimes = s.triggerTimes ++ [s.sceneTime + interval] := by
  simp [GameScene.triggerTimes, GameScene.delay, List.filterMap_append]

/-- The trigger times after a sequence of calls of `delay`: one per call, in call order, each the
time of the call plus its interval. -/
theorem triggerTimes_runDelays {ω κ : Type} (calls : List (DelayCall κ)) (s : GameScene ω κ) :
    (GameScene.runDelays calls s).triggerTimes =
      s.triggerTimes ++ calls.map (fun c => c.time + c.interval) := by
  unfold GameScene.runDelays
  induction calls generalizing s with
  | nil => simp
  | cons c rest ih =>
    simp only [List.foldl_cons, List.map_cons]
    rw [ih, triggerTimes_delay]
    simp [GameScene.triggerTimes]

/-! ## The claims -/

/-- C1: for every player id and every unit command on a unit `u`, the player-level visitor
performs exactly one scene operation, on `u`, chosen by the nested variant alone: an immediate
issue-order calls `issueUnitOrder`, a queued one `enqueueUnitOrder`, a stop `stopUnit`, a
set-fire-orders `setFireOrders`, a set-on-off with `on = true` calls `activateUnit` and with
`on = false` calls `deactivateUnit`.  This holds for every implementation of the scene methods;
on the recording scene the log grows by exactly that one call, whose unit is `u`. -/
theorem dispatch_unit_command_exactly_one_operation {Order σ : Type} (scene : SceneOps Order σ)
    (p : PlayerId) (u : UnitId) :
    (∀ (order : Order) (s : σ),
      PlayerCommandDispatcher scene p
        (.PlayerUnitCommand { unit := u, command := .IssueOrder order .Immediate }) s =
        scene.issueUnitOrder u order s) ∧
    (∀ (order : Order) (s : σ),
      PlayerCommandDispatcher scene p
        (.PlayerUnitCommand { unit := u, command := .IssueOrder order .Queued }) s =
        scene.enqueueUnitOrder u order s) ∧
    (∀ s : σ,
      PlayerCommandDispatcher scene p (.PlayerUnitCommand { unit := u, command := .Stop }) s =
        scene.stopUnit u s) ∧
    (∀ (orders : UnitFireOrders) (s : σ),
      PlayerCommandDispatcher scene p
        (.PlayerUnitCommand { unit := u, command := .SetFireOrders orders }) s =
        scene.setFireOrders u orders s) ∧
    (∀ s : σ,
      PlayerCommandDispatcher scene p
        (.PlayerUnitCommand { unit := u, command := .SetOnOff true }) s =
        scene.activateUnit u s) ∧
    (∀ s : σ,
      PlayerCommandDispatcher scene p
        (.PlayerUnitCommand { unit := u, command := .SetOnOff false }) s =
        scene.deactivateUnit u s) ∧
    (∀ (c : UnitCommand Order) (log : List (SceneCall Order)),
      PlayerCommandDispatcher (recordingScene Order) p
        (.PlayerUnitCommand { unit := u, command := c }) log = log ++ [specifiedCall u c] ∧
      (specifiedCall u c).unitId = u) := by
  refine ⟨fun _ _ => rfl, fun _ _ => rfl, fun _ => rfl, fun _ _ => rfl, fun _ => rfl,
    fun _ => rfl, ?_⟩
  intro c log
  refine ⟨?_, specifiedCall_unitId u c⟩
  show UnitCommandDispacher (recordingScene Order) p u c log = log ++ [specifiedCall u c]
  rw [UnitCommandDispacher_eq_run, run_recordingScene]

/-- C2: the code at the pause and unpause commands.  Both overloads of the player-level visitor
have an empty body, so dispatching either command returns the scene as it was, and whatever
Boolean is read off the scene (a paused flag among them) reads the same before and after: an
unpaused scene stays unpaused. -/
theorem pause_commands_change_nothing {Order σ : Type} (scene : SceneOps Order σ) (p : PlayerId)
    (s : σ) :
    PlayerCommandDispatcher scene p (PlayerCommand.PlayerPauseGameCommand) s = s ∧
    PlayerCommandDispatcher scene p (PlayerCommand.PlayerUnpauseGameCommand) s = s ∧
    (∀ paused : σ → Bool,
      paused (PlayerCommandDispatcher scene p (PlayerCommand.PlayerPauseGameCommand) s) = paused s ∧
      paused (PlayerCommandDispatcher scene p (PlayerCommand.PlayerUnpauseGameCommand) s) =
        paused s) :=
  ⟨rfl, rfl, fun _ => ⟨rfl, rfl⟩⟩

/-- C3: order queue semantics of dispatch, on the scene methods as specified.  For a unit stored
under `u`: when its queue holds 3 orders, an immediate issue-order leaves the queue `[order]`;
whatever its queue `q`, a queued issue-order leaves the queue `q ++ [order]`. -/
theorem dispatch_issue_order_queue {Order κ : Type} (p : PlayerId) (u : UnitId)
    (order : Order) (s : Scene Order κ) (unit : Unit Order) (hunit : getUnit u s = some unit) :
    (unit.orders.length = 3 →
      (getUnit u (PlayerCommandDispatcher (specScene Order κ) p
        (.PlayerUnitCommand { unit := u, command := .IssueOrder order .Immediate }) s)).map
          Unit.orders = some [order]) ∧
    (getUnit u (PlayerCommandDispatcher (specScene Order κ) p
        (.PlayerUnitCommand { unit := u, command := .IssueOrder order .Queued }) s)).map
          Unit.orders = some (unit.orders ++ [order]) := by
  constructor
  · intro _
    simp only [PlayerCommandDispatcher, UnitCommandDispacher, specScene, issueUnitOrder]
    rw [getUnit_modifyUnit, hunit]
    rfl
  · simp only [PlayerCommandDispatcher, UnitCommandDispacher, specScene, enqueueUnitOrder]
    rw [getUnit_modifyUnit, hunit]
    rfl

/-- C3, at a concrete scene: unit 42 holds the orders 1, 2, 3; an immediate order 9 leaves
`[9]`, a queued order 9 leaves `[1, 2, 3, 9]`. -/
theorem dispatch_issue_order_queue_witness :
    (getUnit (UnitId.mk 42) (PlayerCommandDispatcher (specScene Nat Nat) (PlayerId.mk 0)
        (.PlayerUnitCommand { unit := UnitId.mk 42, command := .IssueOrder 9 .Immediate })
        (GameScene.initial { units := [(UnitId.mk 42,
          { owner := PlayerId.mk 0, orders := [1, 2, 3], fireOrders := .HoldFire,
            powered := true, moving := false, health := 10 })] }))).map Unit.orders = some [9] ∧
    (getUnit (UnitId.mk 42) (PlayerCommandDispatcher (specScene Nat Nat) (PlayerId.mk 0)
        (.PlayerUnitCommand { unit := UnitId.mk 42, command := .IssueOrder 9 .Queued })
        (GameScene.initial { units := [(UnitId.mk 42,
          { owner := PlayerId.mk 0, orders := [1, 2, 3], fireOrders := .HoldFire,
            powered := true, moving := false, health := 10 })] }))).map Unit.orders =
      some [1, 2, 3, 9] :=
  ⟨(dispatch_issue_order_queue (PlayerId.mk 0) (UnitId.mk 42) 9
      (GameScene.initial { units := [(UnitId.mk 42,
          { owner := PlayerId.mk 0, orders := [1, 2, 3], fireOrders := .HoldFire,
            powered := true, moving := false, health := 10 })] })
      { owner := PlayerId.mk 0, orders := [1, 2, 3], fireOrders := .HoldFire,
            powered := true, moving := false, health := 10 } (by decide)).1 (by decide),
   (dispatch_issue_order_queue (PlayerId.mk 0) (UnitId.mk 42) 9
      (GameScene.initial { units := [(UnitId.mk 42,
          { owner := PlayerId.mk 0, orders := [1, 2, 3], fireOrders := .HoldFire,
            powered := true, moving := false, health := 10 })] })
      { owner := PlayerId.mk 0, orders := [1, 2, 3], fireOrders := .HoldFire,
            powered := true, moving := false, health := 10 } (by decide)).2⟩

/-- C5: scheduling fixes the trigger tick.  A call `delay(d, f)` made at scene time `T` stores,
as the last entry of `actions`, the entry with trigger time `T + d` and callback `f`.  With
`d = 5` the stored entry has callback `f` and trigger time `T + 5`, which lies strictly after
every tick `t < T + 5`: the entry is due at tick `T + 5` and at no earlier tick. -/
theorem delay_records_trigger_time {ω κ : Type} (d : SceneTimeDelta) (f : κ)
    (s : GameScene ω κ) :
    (GameScene.delay d f s).actions.getLast? =
      some (some { triggerTime := s.sceneTime + d, callback := f }) ∧
    (∀ (a : GameSceneTimeAction κ) (t : SceneTime),
      (GameScene.delay 5 f s).actions.getLast? = some (some a) → t < s.sceneTime + 5 →
      a.callback = f ∧ a.triggerTime = s.sceneTime + 5 ∧ t < a.triggerTime ∧ a.triggerTime ≠ t) := by
  refine ⟨by simp [GameScene.delay], ?_⟩
  intro a t ha ht
  have hlast : (GameScene.delay 5 f s).actions.getLast? =
      some (some { triggerTime := s.sceneTime + 5, callback := f }) := by
    simp [GameScene.delay]
  rw [hlast] at ha
  have hEq : a = { triggerTime := s.sceneTime + 5, callback := f } :=
    (Option.some.inj (Option.some.inj ha)).symm
  subst hEq
  exact ⟨rfl, rfl, ht, fun h => absurd (h ▸ ht) (lt_irrefl _)⟩

/-- C5, at a concrete scene: at scene time 7 a call `delay(5, f)` stores trigger time 12, and
tick 11 lies before it. -/
theorem delay_records_trigger_time_witness :
    (GameScene.delay 5 (3 : Nat)
        ({ simulation := (0 : Nat), sceneTime := 7, actions := [] } : GameScene Nat Nat)).actions.getLast? =
      some (some { triggerTime := 12, callback := 3 }) ∧
    ((GameSceneTimeAction.mk 12 (3 : Nat)).callback = 3 ∧
      (GameSceneTimeAction.mk 12 (3 : Nat)).triggerTime = 7 + 5 ∧
      (11 : SceneTime) < (GameSceneTimeAction.mk 12 (3 : Nat)).triggerTime ∧
      (GameSceneTimeAction.mk 12 (3 : Nat)).triggerTime ≠ 11) :=
  ⟨(delay_records_trigger_time 5 (3 : Nat)
      ({ simulation := (0 : Nat), sceneTime := 7, actions := [] } : GameScene Nat Nat)).1,
   (delay_records_trigger_time 5 (3 : Nat)
      ({ simulation := (0 : Nat), sceneTime := 7, actions := [] } : GameScene Nat Nat)).2
      (GameSceneTimeAction.mk 12 (3 : Nat)) 11 (by decide) (by decide)⟩

/-- C6 as stated fails: from the initial scene, `delay(10, f)` followed by `delay(0, g)`, both
at scene time 0 (intervals non-negative, the clock never decreasing), stores the trigger times
10, 0, which are not in non-decreasing order. -/
theorem delay_order_counterexample :
    (∀ c ∈ [DelayCall.mk 0 10 (0 : Nat), DelayCall.mk 0 0 1], 0 ≤ c.interval) ∧
    List.Sorted (fun a b : SceneTime => a ≤ b)
      ([DelayCall.mk 0 10 (0 : Nat), DelayCall.mk 0 0 1].map DelayCall.time) ∧
    (GameScene.runDelays [DelayCall.mk 0 10 (0 : Nat), DelayCall.mk 0 0 1]
      (GameScene.initial (0 : Nat))).triggerTimes = [10, 0] ∧
    ¬ List.Sorted (fun a b : SceneTime => a ≤ b)
      (GameScene.runDelays [DelayCall.mk 0 10 (0 : Nat), DelayCall.mk 0 0 1]
        (GameScene.initial (0 : Nat))).triggerTimes := by
  refine ⟨by decide, by decide, by decide, by decide⟩

/-- C6, amended: starting from an empty `actions` sequence, for every sequence of calls
`delay(d_i, f_i)` with all `d_i ≥ 0`, made while the scene time never decreases between calls and
with intervals that do not decrease from one call to the next, the stored trigger times are in
non-decreasing order from front to back. -/
theorem delay_order_of_nondecreasing_intervals {ω κ : Type} (calls : List (DelayCall κ))
    (simulation : ω) (_hnonneg : ∀ c ∈ calls, 0 ≤ c.interval)
    (htime : List.Sorted (fun a b : SceneTime => a ≤ b) (calls.map DelayCall.time))
    (hinterval : List.Sorted (fun a b : SceneTimeDelta => a ≤ b) (calls.map DelayCall.interval)) :
    List.Sorted (fun a b : SceneTime => a ≤ b)
      (GameScene.runDelays calls (GameScene.initial simulation : GameScene ω κ)).triggerTimes := by
  rw [triggerTimes_runDelays]
  have h0 : (GameScene.initial simulation : GameScene ω κ).triggerTimes = [] := rfl
  rw [h0, List.nil_append]
  unfold List.Sorted at htime hinterval ⊢
  rw [List.pairwise_map] at htime hinterval ⊢
  exact (htime.and hinterval).imp (fun h => add_le_add h.1 h.2)

/-- C6 amended, at a concrete sequence: `delay(2, f)` at time 0, `delay(2, g)` at time 3 and
`delay(4, h)` at time 3 store the trigger times 2, 5, 7. -/
theorem delay_order_of_nondecreasing_intervals_witness :
    (GameScene.runDelays [DelayCall.mk 0 2 (0 : Nat), DelayCall.mk 3 2 1, DelayCall.mk 3 4 2]
      (GameScene.initial (0 : Nat))).triggerTimes = [2, 5, 7] ∧
    List.Sorted (fun a b : SceneTime => a ≤ b)
      (GameScene.runDelays [DelayCall.mk 0 2 (0 : Nat), DelayCall.mk 3 2 1, DelayCall.mk 3 4 2]
        (GameScene.initial (0 : Nat))).triggerTimes :=
  ⟨by decide,
   delay_order_of_nondecreasing_intervals
     [DelayCall.mk 0 2 (0 : Nat), DelayCall.mk 3 2 1, DelayCall.mk 3 4 2] (0 : Nat)
     (by decide) (by decide) (by decide)⟩

/-- C7: `delay(interval, f)` appends at the back and touches nothing else.  Afterwards `actions`
is the previous sequence followed by exactly one present entry; its length has grown by one;
every index below the old length holds what it held, present or emptied; `sceneTime` and the
simulation are unchanged.  Two calls in a row store their entries in call order, so two actions
with the same trigger tick are stored in the order they were scheduled. -/
theorem delay_appends_at_back {ω κ : Type} (interval : SceneTimeDelta) (f : κ)
    (s : GameScene ω κ) :
    (∃ a : GameSceneTimeAction κ, (GameScene.delay interval f s).actions = s.actions ++ [some a]) ∧
    (GameScene.delay interval f s).actions.length = s.actions.length + 1 ∧
    (∀ i : Nat, i < s.actions.length → (GameScene.delay interval f s).actions[i]? = s.actions[i]?) ∧
    (GameScene.delay interval f s).sceneTime = s.sceneTime ∧
    (GameScene.delay interval f s).simulation = s.simulation ∧
    (∀ c₁ c₂ : DelayCall κ, c₁.time + c₁.interval = c₂.time + c₂.interval →
      (GameScene.runDelays [c₁, c₂] s).actions =
        s.actions ++ [some { triggerTime := c₁.time + c₁.interval, callback := c₁.callback },
          some { triggerTime := c₁.time + c₁.interval, callback := c₂.callback }]) := by
  refine ⟨⟨_, delay_actions interval f s⟩, by simp [GameScene.delay], ?_, rfl, rfl, ?_⟩
  · intro i hi
    rw [delay_actions, List.getElem?_append_left hi]
  · intro c₁ c₂ h
    simp [GameScene.runDelays, GameScene.delay, h]

/-- C7, at a concrete scene: the queue holds an emptied slot and an entry; after `delay(4, 9)` at
time 2 both keep their index, and two calls with the common trigger tick 6 are stored in call
order. -/
theorem delay_appends_at_back_witness :
    (GameScene.delay 4 (9 : Nat)
        ({ simulation := (0 : Nat), sceneTime := 2,
           actions := [none, some { triggerTime := 3, callback := 8 }] } :
          GameScene Nat Nat)).actions[1]? = some (some { triggerTime := 3, callback := 8 }) ∧
    (GameScene.runDelays [DelayCall.mk 2 4 (9 : Nat), DelayCall.mk 5 1 7]
        ({ simulation := (0 : Nat), sceneTime := 2,
           actions := [none, some { triggerTime := 3, callback := 8 }] } :
          GameScene Nat Nat)).actions =
      [none, some { triggerTime := 3, callback := 8 }, some { triggerTime := 6, callback := 9 },
        some { triggerTime := 6, callback := 7 }] :=
  ⟨(delay_appends_at_back 4 (9 : Nat)
      ({ simulation := (0 : Nat), sceneTime := 2,
         actions := [none, some { triggerTime := 3, callback := 8 }] } :
        GameScene Nat Nat)).2.2.1 1 (by decide),
   (delay_appends_at_back 4 (9 : Nat)
      ({ simulation := (0 : Nat), sceneTime := 2,
         actions := [none, some { triggerTime := 3, callback := 8 }] } :
        GameScene Nat Nat)).2.2.2.2.2 (DelayCall.mk 2 4 (9 : Nat)) (DelayCall.mk 5 1 7)
      (by decide)⟩

/-- C9: dispatch does not depend on the submitting player.  For every implementation of the
scene methods, every two player ids, every command and every state, the two dispatches yield
the same state; on the recording scene they log the same calls with the same arguments.  No
scene method receives the player id, so nothing checks who owns the unit. -/
theorem dispatch_ignores_player {Order σ : Type} (scene : SceneOps Order σ) (p₁ p₂ : PlayerId)
    (c : PlayerCommand Order) (s : σ) (log : List (SceneCall Order)) :
    PlayerCommandDispatcher scene p₁ c s = PlayerCommandDispatcher scene p₂ c s ∧
    PlayerCommandDispatcher (recordingScene Order) p₁ c log =
      PlayerCommandDispatcher (recordingScene Order) p₂ c log := by
  rw [PlayerCommandDispatcher_player_irrelevant scene p₁ p₂,
    PlayerCommandDispatcher_player_irrelevant (recordingScene Order) p₁ p₂]
  exact ⟨rfl, rfl⟩

/-- C10: cursor-mode equality is coherent.  For each of the four cursor modes `!=` is the
negation of `==`, and `==` is reflexive, symmetric and transitive; any two attack modes and any
two move modes are equal; two normal modes are equal exactly when their states are, a
default-constructed one having state `Up`; two build modes are equal exactly when their
`unitType` strings are. -/
theorem cursor_mode_equality_coherent :
    CoherentEq AttackCursorMode.eq AttackCursorMode.ne ∧
    CoherentEq MoveCursorMode.eq MoveCursorMode.ne ∧
    CoherentEq NormalCursorMode.eq NormalCursorMode.ne ∧
    CoherentEq BuildCursorMode.eq BuildCursorMode.ne ∧
    (∀ a b : AttackCursorMode, AttackCursorMode.eq a b = true) ∧
    (∀ a b : MoveCursorMode, MoveCursorMode.eq a b = true) ∧
    (∀ a b : NormalCursorMode, NormalCursorMode.eq a b = true ↔ a.state = b.state) ∧
    ({} : NormalCursorMode).state = NormalCursorMode.State.Up ∧
    (∀ a b : BuildCursorMode, BuildCursorMode.eq a b = true ↔ a.unitType = b.unitType) := by
  refine ⟨⟨fun _ _ => rfl, fun _ => rfl, fun _ _ _ => rfl, fun _ _ _ _ _ => rfl⟩,
    ⟨fun _ _ => rfl, fun _ => rfl, fun _ _ _ => rfl, fun _ _ _ _ _ => rfl⟩,
    ⟨?_, ?_, ?_, ?_⟩, ⟨?_, ?_, ?_, ?_⟩, fun _ _ => rfl, fun _ _ => rfl, ?_, rfl, ?_⟩
  · intro a b
    simp only [NormalCursorMode.ne, NormalCursorMode.eq]
    by_cases h : a.state = b.state
    · simp [h]
    · simp [h, Ne.symm h]
  · intro a
    simp [NormalCursorMode.eq]
  · intro a b h
    simp only [NormalCursorMode.eq, decide_eq_true_eq] at h ⊢
    exact h.symm
  · intro a b c h₁ h₂
    simp only [NormalCursorMode.eq, decide_eq_true_eq] at h₁ h₂ ⊢
    exact h₁.trans h₂
  · intro a b
    simp only [BuildCursorMode.ne, BuildCursorMode.eq]
    by_cases h : a.unitType = b.unitType
    · simp [h]
    · simp [h, Ne.symm h]
  · intro a
    simp [BuildCursorMode.eq]
  · intro a b h
    simp only [BuildCursorMode.eq, decide_eq_true_eq] at h ⊢
    exact h.symm
  · intro a b c h₁ h₂
    simp only [BuildCursorMode.eq, decide_eq_true_eq] at h₁ h₂ ⊢
    exact h₁.trans h₂
  · intro a b
    simp [NormalCursorMode.eq]
  · intro a b
    simp [BuildCursorMode.eq]

/-- C10, at concrete values: the build modes "armsolar" and "armsolar" are equal and not
unequal; the normal modes `Selecting`, `Selecting`, `Selecting` are equal along the chain. -/
theorem cursor_mode_equality_coherent_witness :
    BuildCursorMode.ne { unitType := "armsolar" } { unitType := "armsolar" } = false ∧
    NormalCursorMode.eq { state := .Selecting } { state := .Selecting } = true :=
  ⟨(cursor_mode_equality_coherent.2.2.2.1.1 { unitType := "armsolar" }
      { unitType := "armsolar" }).trans (by decide),
   cursor_mode_equality_coherent.2.2.1.2.2.2 { state := .Selecting } { state := .Selecting }
     { state := .Selecting } (by decide) (by decide)⟩

end rwe
